import Mathlib

/-!
# Catto — verification of the simulation core

Shallow embedding of `game.js` (chewear/catto): a canvas arena-survival
game.  The simulation state lives in one mutable world (player, abilities,
enemies, projectiles, XP orbs, particles) advanced once per animation
frame by `gameLoop`.

Modelling conventions, fixed for the whole file:

* JS numbers are modelled as exact rationals, concretely the canonical
  fraction type `JsNum` below (Mathlib's `ℚ` arithmetic does not reduce
  inside the kernel, so an executable clone is used).  IEEE-754 double
  rounding is not modelled; every concrete input used in a theorem or
  counterexample below is chosen so that all comparisons and `Math.floor`
  results have margins that are many orders of magnitude larger than
  double rounding error, hence coincide with the real JS values.
* `Math.hypot` is modelled by `hypot` below, built on a rational square
  root that is exact whenever the true distance is a rational with the
  same denominator; all concrete distance comparisons below are either
  exact or far from their thresholds.
* `Math.random()` is modelled by an explicit stream `rng : ℕ → JsNum`
  threaded through the world together with a cursor `rngIdx`; each
  `Math.random()` call reads `rng rngIdx` and advances the cursor.
* `setTimeout`-deferred damage (Paw Slam level-5 second hit, Claw Orbit
  level-5 afterimage) fires outside the tick ordering (spec §5) and is
  not part of the per-tick transition; it is omitted from the tick
  functions (the spec itself treats it as asynchronous wall-clock work).
* `Array.prototype.forEach` over an array that the callback splices is
  modelled exactly: the length is read once at entry, and index `k` is
  visited only while `k` is still inside the current array; `splice(k,1)`
  is `List.eraseIdx · k` (a no-op when `k` is out of range), and element
  mutation through the captured reference is modelled by `List.set` while
  the element is still in the list, or by updating the detached local
  value after it was removed.
* Rendering and DOM/UI writes (`render`, `updateUI`, modal contents) are
  external effects; they read the world and write nothing back, which is
  visible from the source (lines 911–1149).  The offered upgrade choices,
  which the DOM holds as buttons, are kept in the world as
  `levelUpChoices`.
* `localStorage` is `Option String` (the single key `catto_highscore`).
-/

namespace Catto

/-! ## Exact number type (kernel-computable rationals) -/

/-- A rational in lowest terms with positive denominator — the value of a
JS number.  All operations below keep the representation canonical, so
structural (derived) equality is value equality.  `den = 0` encodes the
NaN/Infinity family, which no guarded code path of the game produces. -/
structure JsNum where
  num : ℤ
  den : ℕ
deriving DecidableEq, Repr

/-- Build a canonical fraction from a numerator and a `ℕ` denominator. -/
def mkJs (n : ℤ) (d : ℕ) : JsNum :=
  if d = 0 then ⟨0, 0⟩
  else
    let g := n.natAbs.gcd d
    ⟨n / (g : ℤ), d / g⟩

/-- Build a canonical fraction from two integers. -/
def mkJsInt (n d : ℤ) : JsNum :=
  if d < 0 then mkJs (-n) (-d).toNat else mkJs n d.toNat

instance : OfNat JsNum n := ⟨⟨n, 1⟩⟩
instance : Neg JsNum := ⟨fun a => ⟨-a.num, a.den⟩⟩
instance : Add JsNum := ⟨fun a b => mkJs (a.num * b.den + b.num * a.den) (a.den * b.den)⟩
instance : Sub JsNum := ⟨fun a b => mkJs (a.num * b.den - b.num * a.den) (a.den * b.den)⟩
instance : Mul JsNum := ⟨fun a b => mkJs (a.num * b.num) (a.den * b.den)⟩
instance : Div JsNum := ⟨fun a b => mkJsInt (a.num * b.den) (b.num * a.den)⟩
instance : LT JsNum := ⟨fun a b => a.num * b.den < b.num * a.den⟩
instance : LE JsNum := ⟨fun a b => a.num * b.den ≤ b.num * a.den⟩
instance (a b : JsNum) : Decidable (a < b) := Int.decLt _ _
instance (a b : JsNum) : Decidable (a ≤ b) := Int.decLe _ _

/-- The `Math.max`. -/
instance : Max JsNum := ⟨fun a b => if a ≤ b then b else a⟩
/-- The `Math.min`. -/
instance : Min JsNum := ⟨fun a b => if a ≤ b then a else b⟩

/-- The value of a `ℕ` as a JS number. -/
def natJs (n : ℕ) : JsNum := ⟨n, 1⟩
/-- The value of a `ℤ` as a JS number. -/
def intJs (i : ℤ) : JsNum := ⟨i, 1⟩

/-- The `Math.floor` (on canonical fractions `Int.fdiv` is the floor). -/
def jfloor (a : JsNum) : ℤ := Int.fdiv a.num a.den

/-- Newton iteration for integer square roots, with explicit fuel so the
kernel can evaluate it. -/
def isqrtIter : ℕ → ℕ → ℕ → ℕ
  | 0, _, g => g
  | f + 1, n, g =>
    let g' := (g + n / g) / 2
    if g' < g then isqrtIter f n g' else g

/-- Integer square root (floor).  Newton from `n/2 + 1` strictly
decreases while above the root, roughly halving per step, so 128 steps
cover every magnitude the game can produce (far beyond 2^200). -/
def isqrt (n : ℕ) : ℕ :=
  if n ≤ 1 then n else isqrtIter 128 n (n / 2 + 1)

/-- Rational square root: `√(p/q) = √(p·q)/q`, exact whenever the root is
a rational with the same denominator, a floor approximation otherwise
(error below `1/den`). -/
def jsqrt (q : JsNum) : JsNum := mkJs (isqrt (q.num.toNat * q.den)) q.den

/-- Model of `Math.hypot(dx, dy)`. -/
def hypot (dx dy : JsNum) : JsNum := jsqrt (dx * dx + dy * dy)

/-- The order on `JsNum` is total (its comparisons are integer
comparisons of cross products). -/
theorem jsNum_le_total (a b : JsNum) : a ≤ b ∨ b ≤ a :=
  Int.le_total (a.num * b.den) (b.num * a.den)

/-- The order on `JsNum` is reflexive. -/
theorem jsNum_le_refl (a : JsNum) : a ≤ a :=
  Int.le_refl (a.num * a.den)

/-- The `Math.min x y ≤ x` needs only totality of the order. -/
theorem jsNum_min_le_left (a b : JsNum) : min a b ≤ a := by
  show (if a ≤ b then a else b) ≤ a
  by_cases h : a ≤ b
  · simpa [h] using jsNum_le_refl a
  · simpa [h] using (jsNum_le_total a b).resolve_left h

/-- The `x ≤ Math.max x y`. -/
theorem jsNum_le_max_left (a b : JsNum) : a ≤ max a b := by
  show a ≤ if a ≤ b then b else a
  by_cases h : a ≤ b
  · simp [h]
  · simpa [h] using jsNum_le_refl a

/-! ## Data model (typedefs at game.js lines 17–79) -/

/-- The `canvas.width` (index.html hardcodes 1200×800). -/
def canvasWidth : JsNum := 1200
/-- The `canvas.height`. -/
def canvasHeight : JsNum := 800

/-- Enemy variants (`('rat'|'dog'|'crow')`). -/
inductive EnemyType where
  | rat | dog | crow
deriving DecidableEq, Repr

/-- Projectile variants (`('whip'|'hairball')`). -/
inductive ProjType where
  | whip | hairball
deriving DecidableEq, Repr

/-- The `Enemy` record (game.js lines 33–47, built at lines 624–637). -/
structure Enemy where
  x : JsNum
  y : JsNum
  hp : JsNum
  maxHp : JsNum
  speed : JsNum
  damage : JsNum
  size : JsNum
  xpValue : ℤ
  type : EnemyType
  wave : ℕ
  facingLeft : Bool
deriving DecidableEq, Repr

/-- The `Projectile` record (game.js lines 49–62).  `range` is `none` for
hairballs (the field is absent, so `life > range` is false); `pierce`,
`bounce`, `explode` default to `false` when absent. -/
structure Projectile where
  x : JsNum
  y : JsNum
  dx : JsNum
  dy : JsNum
  damage : JsNum
  range : Option JsNum
  pierce : Bool
  bounce : Bool
  explode : Bool
  type : ProjType
  life : ℕ
deriving DecidableEq, Repr

/-- The `XPOrb` record (game.js lines 64–70). -/
structure XPOrb where
  x : JsNum
  y : JsNum
  value : ℤ
  life : ℤ
deriving DecidableEq, Repr

/-- The `Particle` record (game.js lines 72–79; `type` is always
`'slam'`). -/
structure Particle where
  x : JsNum
  y : JsNum
  radius : JsNum
  life : ℤ
deriving DecidableEq, Repr

/-- One orbiting claw (game.js lines 368–377, positions written at lines
412–417).  The source stores the angle in radians as `(2π/count)·i`; we
store the rational `angleTurns = i/count` (fraction of a full turn), with
`x`,`y` the world position recomputed each tick by `updateAbilities`. -/
structure Claw where
  angleTurns : JsNum
  distance : JsNum
  x : JsNum
  y : JsNum
deriving DecidableEq, Repr

/-- Runtime state of `abilities.clawOrbit` (constants `damage = 12`,
`speed = 2.2`, `maxLevel = 5` are fixed in the source object and never
mutated, so they are kept as definitions below). -/
structure ClawOrbitState where
  level : ℕ
  claws : List Claw
  rotation : JsNum
deriving DecidableEq, Repr

/-- Runtime state of each of the four cooldown abilities (whiskerWhip,
hairballBurst, pawSlam, catNap).  Per-ability constants (maxCooldown,
damage, range, count, radius, healing) are never mutated and are kept as
definitions. -/
structure TimedAbility where
  level : ℕ
  cooldown : JsNum
deriving DecidableEq, Repr

/-- The `abilities` object (game.js lines 228–308). -/
structure Abilities where
  clawOrbit : ClawOrbitState
  whiskerWhip : TimedAbility
  hairballBurst : TimedAbility
  pawSlam : TimedAbility
  catNap : TimedAbility
deriving DecidableEq, Repr

/-- The `PlayerState` record (game.js lines 17–31).  `invulnerable` is a
frame countdown; the source leaves it `undefined` until first written and
tests `!invulnerable || invulnerable <= 0`, which on `ℕ` is `= 0`. -/
structure Player where
  x : JsNum
  y : JsNum
  hp : JsNum
  maxHp : JsNum
  level : ℕ
  xp : ℤ
  xpNext : ℕ
  speed : JsNum
  facingLeft : Bool
  invulnerable : ℕ
deriving DecidableEq, Repr

/-- Pressed-key set sampled by the input listeners (game.js lines
359–361); the simulation reads only these eight keys. -/
structure Keys where
  w : Bool
  a : Bool
  s : Bool
  d : Bool
  up : Bool
  down : Bool
  left : Bool
  right : Bool
deriving DecidableEq, Repr

/-- The five ability keys, in `Object.entries(abilities)` insertion
order. -/
inductive AbilityKey where
  | clawOrbit | whiskerWhip | hairballBurst | pawSlam | catNap
deriving DecidableEq, Repr

/-- One entry of the level-up offer (game.js lines 841–851). -/
structure UpgradeChoice where
  key : AbilityKey
  isNew : Bool
  description : String
deriving DecidableEq, Repr

/-- The whole mutable world: `gameState`, `abilities`, the four entity
arrays (game.js lines 200–320), the keyboard map, the persisted-storage
cell and the random stream. -/
structure World where
  player : Player
  time : ℕ
  kills : ℕ
  paused : Bool
  gameOver : Bool
  abilities : Abilities
  enemies : List Enemy
  projectiles : List Projectile
  xpOrbs : List XPOrb
  particles : List Particle
  levelUpChoices : List (Option UpgradeChoice)
  storage : Option String
  keys : Keys
  rng : ℕ → JsNum
  rngIdx : ℕ

/-- One `Math.random()` call: read the stream and advance the cursor. -/
def rand (w : World) : JsNum × World :=
  (w.rng w.rngIdx, { w with rngIdx := w.rngIdx + 1 })

/-! ## Persistence (`getHighScore`, `gameOver`); game.js lines 159–165 and
1156–1173.  `localStorage.getItem` returns `null` when the key is absent;
`x || '0'` replaces both `null` and the empty string (the only falsy
string) by `'0'`; `parseInt` with no radix skips leading whitespace, takes
an optional sign and then the maximal run of decimal digits, and yields
`NaN` when that run is empty.  (`parseInt`'s automatic hex detection for
`0x` prefixes is not modelled; no value the game ever stores has it.)
`NaN` is modelled as `none`. -/

/-- Value of a most-significant-first list of decimal digit characters. -/
def digitsVal (cs : List Char) : ℕ :=
  cs.foldl (fun a c => a * 10 + (c.toNat - 48)) 0

/-- Maximal leading run of decimal digits, `none` when it is empty
(the `NaN` case of `parseInt`). -/
def parseLeadingDigits (cs : List Char) : Option ℕ :=
  let ds := cs.takeWhile Char.isDigit
  if ds.isEmpty then none else some (digitsVal ds)

/-- Model of JS `parseInt(s)` (radix 10); `none` is `NaN`. -/
def parseIntStr (s : String) : Option ℤ :=
  let cs := s.data.dropWhile Char.isWhitespace
  match cs.head? with
  | none => none
  | some c =>
    if c = '-' then (parseLeadingDigits cs.tail).map (fun v => -(v : ℤ))
    else if c = '+' then (parseLeadingDigits cs.tail).map (fun v => (v : ℤ))
    else (parseLeadingDigits cs).map (fun v => (v : ℤ))

/-- Decimal digit characters of `n`, least significant first, with
fuel. -/
def natDigitsRev : ℕ → ℕ → List Char
  | 0, _ => []
  | f + 1, n =>
    if n < 10 then [Char.ofNat (48 + n)]
    else Char.ofNat (48 + n % 10) :: natDigitsRev f (n / 10)

/-- Decimal string of a natural number: the string JS produces when the
integer `finalScore` is stored into `localStorage`. -/
def natReprM (n : ℕ) : String :=
  ⟨(natDigitsRev (n + 1) n).reverse⟩

/-- The `getHighScore()` (game.js lines 163–165):
`parseInt(localStorage.getItem('catto_highscore') || '0')`. -/
def getHighScoreM (storage : Option String) : Option ℤ :=
  let s := match storage with
    | none => "0"
    | some str => if str = "" then "0" else str
  parseIntStr s

/-- The `gameOver()` (game.js lines 1156–1173): set the terminal flag and
persist the kill count when it strictly exceeds the stored high score.
`finalScore > currentHighScore` is false when the parse gave `NaN`.
The DOM updates of the summary screen are external effects. -/
def gameOverM (w : World) : World :=
  let finalScore := w.kills
  let currentHighScore := getHighScoreM w.storage
  let storage' := match currentHighScore with
    | some v => if (finalScore : ℤ) > v then some (natReprM finalScore) else w.storage
    | none => w.storage
  { w with gameOver := true, storage := storage' }

/-! ## Player movement (`updatePlayer`, game.js lines 383–398) -/

/-- Apply held keys to the player, then clamp to the visible bounds. -/
def movePlayer (keys : Keys) (p : Player) : Player :=
  let p := if keys.w || keys.up then { p with y := p.y - p.speed } else p
  let p := if keys.s || keys.down then { p with y := p.y + p.speed } else p
  let p := if keys.a || keys.left then
      { p with x := p.x - p.speed, facingLeft := true } else p
  let p := if keys.d || keys.right then
      { p with x := p.x + p.speed, facingLeft := false } else p
  { p with
    x := max 30 (min (canvasWidth - 30) p.x),
    y := max 30 (min (canvasHeight - 30) p.y) }

/-- World-level `updatePlayer()`. -/
def updatePlayerW (w : World) : World :=
  { w with player := movePlayer w.keys w.player }

/-! ## Abilities: constants, claw geometry, upgrade bookkeeping -/

/-- Every ability's `maxLevel` is 5. -/
def maxLevel : ℕ := 5

/-- Level of one ability. -/
def abilityLevel (ab : Abilities) : AbilityKey → ℕ
  | .clawOrbit => ab.clawOrbit.level
  | .whiskerWhip => ab.whiskerWhip.level
  | .hairballBurst => ab.hairballBurst.level
  | .pawSlam => ab.pawSlam.level
  | .catNap => ab.catNap.level

/-- The `descriptions` array of one ability (game.js lines 237–306),
indexed by the current level to describe the next upgrade. -/
def abilityDescriptions : AbilityKey → List String
  | .clawOrbit =>
    ["2 claws rotate steadily", "Claws rotate faster, +25% damage",
     "Adds 2 more claws (total 4)", "Claws grow larger, +30% damage",
     "Max speed, claws leave damaging afterimages"]
  | .whiskerWhip =>
    ["Fires a whip forward every 2 seconds", "Cooldown reduced",
     "Whip length increased", "Hits pierce through multiple enemies",
     "Whip splits into two directions"]
  | .hairballBurst =>
    ["Fires one hairball in random direction", "Damage increased",
     "+1 extra hairball", "Hairballs bounce once after hitting",
     "Hairballs explode into fragments"]
  | .pawSlam =>
    ["Small AoE slam around the cat", "Damage +20%", "Larger radius",
     "Leaves burning paw print", "Double slam (hits twice)"]
  | .catNap =>
    ["Recover small HP after 30 sec", "Also reduces damage taken by 5%",
     "Heal amount increased", "Gain brief invulnerability after napping",
     "Auto-heal every 20 sec"]

/-- Keys in `Object.entries(abilities)` insertion order. -/
def allAbilityKeys : List AbilityKey :=
  [.clawOrbit, .whiskerWhip, .hairballBurst, .pawSlam, .catNap]

/-- The `initClawOrbit()` (game.js lines 368–377): rebuild the claw list,
4 claws at level ≥ 3 and 2 below, evenly spaced at distance 55.  The
world position is written by `updateAbilities` before any read. -/
def mkClaws (level : ℕ) : List Claw :=
  let clawCount := if 3 ≤ level then 4 else 2
  (List.range clawCount).map fun i =>
    { angleTurns := natJs i / natJs clawCount, distance := 55, x := 0, y := 0 }

/-- The `availableUpgrades` pool (game.js lines 841–851): every ability
whose level is strictly below its max, in entries order. -/
def availableUpgrades (ab : Abilities) : List UpgradeChoice :=
  (allAbilityKeys.filter fun k => abilityLevel ab k < maxLevel).map fun k =>
    { key := k,
      isNew := abilityLevel ab k = 0,
      description := (abilityDescriptions k).getD (abilityLevel ab k) "" }

/-- The while loop of game.js lines 854–859: draw up to 2 choices without
replacement.  `availableUpgrades[randomIndex]` with an index produced by
`Math.floor(Math.random()·length)` is `undefined` (here `none`) if the
random value were outside `[0,1)`; `splice` at such an index is a no-op.
Returns the pushed choices and how many `Math.random()` calls were
made. -/
def selectTwoUpgrades (pool : List UpgradeChoice) (r1 r2 : JsNum) :
    List (Option UpgradeChoice) × ℕ :=
  if pool.length = 0 then ([], 0)
  else
    let i1 := (jfloor (r1 * natJs pool.length)).toNat
    let c1 := pool[i1]?
    let pool1 := pool.eraseIdx i1
    if pool1.length = 0 then ([c1], 1)
    else
      let i2 := (jfloor (r2 * natJs pool1.length)).toNat
      ([c1, pool1[i2]?], 2)

/-- The `showLevelUpModal()` (game.js lines 834–873): pause and publish up to
two drawn upgrade choices (the buttons are DOM effects). -/
def showLevelUpModal (w : World) : World :=
  let pool := availableUpgrades w.abilities
  let drawn := selectTwoUpgrades pool (w.rng w.rngIdx) (w.rng (w.rngIdx + 1))
  { w with paused := true, levelUpChoices := drawn.1, rngIdx := w.rngIdx + drawn.2 }

/-- The `levelUp()` (game.js lines 809–827): carry the xp remainder, grow
`xpNext` by the tier of the *new* level (12% ≤ 5, 15% ≤ 10, 18% beyond,
floor-rounded each step; `Math.floor` of the nonnegative product is `ℕ`
division here), re-pin `maxHp` to 100, heal 20 capped at 100, then open
the modal. -/
def levelUp (w : World) : World :=
  let lvl := w.player.level + 1
  let xpNext' :=
    if lvl ≤ 5 then w.player.xpNext * 112 / 100
    else if lvl ≤ 10 then w.player.xpNext * 115 / 100
    else w.player.xpNext * 118 / 100
  showLevelUpModal
    { w with player :=
      { w.player with
        level := lvl,
        xp := w.player.xp - (w.player.xpNext : ℤ),
        xpNext := xpNext',
        maxHp := 100,
        hp := min 100 (w.player.hp + 20) } }

/-- Increment one ability's level (`abilities[abilityKey].level++`). -/
def bumpAbility (ab : Abilities) : AbilityKey → Abilities
  | .clawOrbit => { ab with clawOrbit := { ab.clawOrbit with level := ab.clawOrbit.level + 1 } }
  | .whiskerWhip => { ab with whiskerWhip := { ab.whiskerWhip with level := ab.whiskerWhip.level + 1 } }
  | .hairballBurst => { ab with hairballBurst := { ab.hairballBurst with level := ab.hairballBurst.level + 1 } }
  | .pawSlam => { ab with pawSlam := { ab.pawSlam with level := ab.pawSlam.level + 1 } }
  | .catNap => { ab with catNap := { ab.catNap with level := ab.catNap.level + 1 } }

/-- The `selectUpgrade(abilityKey)` (game.js lines 881–891): level up the
chosen ability, rebuild the claw geometry when it was `clawOrbit`, hide
the modal (external) and unpause. -/
def selectUpgradeW (w : World) (k : AbilityKey) : World :=
  let ab := bumpAbility w.abilities k
  let ab :=
    if k = .clawOrbit then
      { ab with clawOrbit := { ab.clawOrbit with claws := mkClaws ab.clawOrbit.level } }
    else ab
  { w with abilities := ab, paused := false }

/-! ## Ability triggers (game.js lines 405–550) -/

/-- The `fireWhiskerWhip()` (game.js lines 459–474): one forward projectile,
two opposite ones at level 5.  `Math.cos(0)·4 = 4`, `Math.cos(π)·4 = -4`,
and the sine components are zero (up to the 1e-16 of `sin π`, far below
anything observable here). -/
def fireWhiskerWhip (w : World) : World :=
  let lvl := w.abilities.whiskerWhip.level
  let mk := fun (vx : JsNum) =>
    ({ x := w.player.x, y := w.player.y, dx := vx, dy := 0,
       damage := 25,
       range := some (if 3 ≤ lvl then 120 else 80),
       pierce := 4 ≤ lvl, bounce := false, explode := false,
       type := .whip, life := 0 } : Projectile)
  let news := if 5 ≤ lvl then [mk 4, mk (-4)] else [mk 4]
  { w with projectiles := w.projectiles ++ news }

/-- The `fireHairball()` (game.js lines 481–500): 1 (2 at level ≥ 3)
projectiles at random angles, ×1.5 damage at level ≥ 2, bounce/explode
flags at levels ≥ 4/≥ 5.  `trig 0 r` stands for
`(cos (2π·r), sin (2π·r))` of the random angle `r·2π`. -/
def fireHairball (trig : JsNum → JsNum → JsNum × JsNum) (w : World) : World :=
  let lvl := w.abilities.hairballBurst.level
  let count := if 3 ≤ lvl then 2 else 1
  (List.range count).foldl
    (fun w _ =>
      let (r, w) := rand w
      let cs := trig 0 r
      let damage : JsNum := 20 * (if 2 ≤ lvl then 3/2 else 1)
      { w with projectiles := w.projectiles ++
        [{ x := w.player.x, y := w.player.y,
           dx := cs.1 * 3, dy := cs.2 * 3, damage := damage,
           range := none, pierce := false,
           bounce := 4 ≤ lvl, explode := 5 ≤ lvl,
           type := .hairball, life := 0 }] })
    w

/-- The `pawSlam()` (game.js lines 507–533): instantaneous AoE (`dist ≤
radius`), radius ×1.5 at level ≥ 3, damage ×1.2 at level ≥ 2, plus one
visual particle.  The level-5 second hit is a `setTimeout` firing outside
the tick (see the header); it is not part of this transition. -/
def pawSlamFire (w : World) : World :=
  let lvl := w.abilities.pawSlam.level
  let radius : JsNum := 60 * (if 3 ≤ lvl then 3/2 else 1)
  let damage : JsNum := 30 * (if 2 ≤ lvl then 6/5 else 1)
  { w with
    enemies := w.enemies.map fun e =>
      if hypot (e.x - w.player.x) (e.y - w.player.y) ≤ radius then
        { e with hp := e.hp - damage }
      else e,
    particles := w.particles ++
      [{ x := w.player.x, y := w.player.y, radius := radius, life := 30 }] }

/-- The `catNap()` (game.js lines 540–550): heal 20 (×1.5 at level ≥ 3)
clamped so hp never exceeds 100; 180 frames of invulnerability at
level ≥ 4. -/
def catNapFire (w : World) : World :=
  let lvl := w.abilities.catNap.level
  let healing : JsNum := 20 * (if 3 ≤ lvl then 3/2 else 1)
  let p := { w.player with hp := min 100 (w.player.hp + healing) }
  let p := if 4 ≤ lvl then { p with invulnerable := 180 } else p
  { w with player := p }

/-- The `if (ability.cooldown > 0) ability.cooldown--` for one ability. -/
def decCooldown (a : TimedAbility) : TimedAbility :=
  if 0 < a.cooldown then { a with cooldown := a.cooldown - 1 } else a

/-- The `updateAbilities()` (game.js lines 405–452): advance the claw
rotation (`speed 2.2 × multiplier × 0.02`, multiplier 1 below level 2,
2 at 2–4, 4 at 5) and recompute claw world positions; decrement every
cooldown (`clawOrbit` has none); then fire each ready ability and reset
its cooldown (whip ×0.7 at level ≥ 2, catNap override 1200 at level 5).
`trig rot t` stands for `(cos (rot + 2π·t), sin (rot + 2π·t))`. -/
def updateAbilities (trig : JsNum → JsNum → JsNum × JsNum) (w : World) : World :=
  let w :=
    if 0 < w.abilities.clawOrbit.level then
      let co := w.abilities.clawOrbit
      let speedMultiplier : JsNum := if 2 ≤ co.level then 2 else 1
      let finalSpeed : JsNum := if 5 ≤ co.level then 4 else speedMultiplier
      let rot := co.rotation + (11/5) * finalSpeed * (1/50)
      let claws := co.claws.map fun c =>
        let cs := trig rot c.angleTurns
        { c with
          x := w.player.x + cs.1 * c.distance,
          y := w.player.y + cs.2 * c.distance }
      { w with abilities :=
        { w.abilities with clawOrbit := { co with rotation := rot, claws := claws } } }
    else w
  let w := { w with abilities :=
    { w.abilities with
      whiskerWhip := decCooldown w.abilities.whiskerWhip,
      hairballBurst := decCooldown w.abilities.hairballBurst,
      pawSlam := decCooldown w.abilities.pawSlam,
      catNap := decCooldown w.abilities.catNap } }
  let w :=
    if 0 < w.abilities.whiskerWhip.level ∧ w.abilities.whiskerWhip.cooldown ≤ 0 then
      let w := fireWhiskerWhip w
      let cd : JsNum := 120 * (if 2 ≤ w.abilities.whiskerWhip.level then 7/10 else 1)
      { w with abilities :=
        { w.abilities with whiskerWhip := { w.abilities.whiskerWhip with cooldown := cd } } }
    else w
  let w :=
    if 0 < w.abilities.hairballBurst.level ∧ w.abilities.hairballBurst.cooldown ≤ 0 then
      let w := fireHairball trig w
      { w with abilities :=
        { w.abilities with hairballBurst := { w.abilities.hairballBurst with cooldown := 180 } } }
    else w
  let w :=
    if 0 < w.abilities.pawSlam.level ∧ w.abilities.pawSlam.cooldown ≤ 0 then
      let w := pawSlamFire w
      { w with abilities :=
        { w.abilities with pawSlam := { w.abilities.pawSlam with cooldown := 150 } } }
    else w
  if 0 < w.abilities.catNap.level ∧ w.abilities.catNap.cooldown ≤ 0 then
    let w := catNapFire w
    let cd : JsNum := if 5 ≤ w.abilities.catNap.level then 1200 else 1800
    { w with abilities :=
      { w.abilities with catNap := { w.abilities.catNap with cooldown := cd } } }
  else w

/-! ## Enemy spawner (`spawnEnemies`, game.js lines 557–639) -/

/-- Static blueprint of one enemy type (game.js lines 325–353). -/
structure EnemyTemplate where
  hp : JsNum
  speed : JsNum
  damage : JsNum
  size : JsNum
  xpValue : JsNum

/-- The `enemyTypes` (game.js lines 325–353). -/
def enemyTemplate : EnemyType → EnemyTemplate
  | .rat => { hp := 12, speed := 7/10, damage := 2, size := 8, xpValue := 2 }
  | .dog => { hp := 30, speed := 3/2, damage := 6, size := 12, xpValue := 4 }
  | .crow => { hp := 40, speed := 6/5, damage := 5, size := 10, xpValue := 6 }

/-- The population cap:
`min(15 + 5·floor(time/1800) + 3·floor(level/3), 50)`. -/
def maxEnemiesCap (w : World) : ℕ :=
  min (15 + w.time / 1800 * 5 + w.player.level / 3 * 3) 50

/-- The `spawnEnemies()` (game.js lines 557–639): return unchanged at the
population cap; otherwise one Bernoulli trial at rate
`(0.008 + min(0.002·wave, 0.015) + min(0.002·level, 0.020)) ×
(2 during the first 600 ticks of a wave, else 1)` gates at most one
spawn.  On a spawn: tiered random type (crows need wave ≥ 4 and level
≥ 5, dogs wave ≥ 2 and level ≥ 2), a uniformly random edge position just
outside the canvas, and stats scaled by
`(1 + 0.12(wave-1))·(1 + 0.05(level-1))` with floors on hp/damage/xp, a
2.5 cap on the speed factor and a 1.2 floor on the xp factor.  (The
`side` switch has no default; a side outside 0–3 cannot arise from
`Math.random ∈ [0,1)` and is mapped to the spawn position (0, 0).)

The per-tick spawn probability (game.js lines 567–580). -/
def finalSpawnRate (w : World) : JsNum :=
  let waveNumber := w.time / 1500 + 1
  let currentWaveTime := w.time % 1500
  let waveMultiplier : JsNum := if currentWaveTime < 600 then 2 else 1
  let waveScalingRate : JsNum := min (natJs waveNumber * (2/1000)) (15/1000)
  let levelMultiplier : JsNum := min (natJs w.player.level * (2/1000)) (20/1000)
  ((8/1000) + waveScalingRate + levelMultiplier) * waveMultiplier

/-- The body of the successful Bernoulli trial (game.js lines 582–637):
tiered random type draw, stat scaling and the push of the new enemy. -/
def spawnNewEnemy (w : World) : World :=
  let waveNumber := w.time / 1500 + 1
  let (selectedType, w) :=
    if 4 ≤ waveNumber ∧ 5 ≤ w.player.level then
      let (r2, w) := rand w
      (if r2 < 4/10 then EnemyType.rat
       else if r2 < 7/10 then EnemyType.dog
       else EnemyType.crow, w)
    else if 2 ≤ waveNumber ∧ 2 ≤ w.player.level then
      let (r2, w) := rand w
      (if r2 < 6/10 then EnemyType.rat else EnemyType.dog, w)
    else (EnemyType.rat, w)
  let tmpl := enemyTemplate selectedType
  let waveScaling : JsNum := 1 + (natJs waveNumber - 1) * (12/100)
  let levelScaling : JsNum := 1 + (natJs w.player.level - 1) * (5/100)
  let totalScaling := waveScaling * levelScaling
  let (rside, w) := rand w
  let side := (jfloor (rside * 4)).toNat
  let (rpos, w) := rand w
  let pos : JsNum × JsNum :=
    if side = 0 then (rpos * canvasWidth, -20)
    else if side = 1 then (canvasWidth + 20, rpos * canvasHeight)
    else if side = 2 then (rpos * canvasWidth, canvasHeight + 20)
    else if side = 3 then (-20, rpos * canvasHeight)
    else (0, 0)
  { w with enemies := w.enemies ++
    [{ x := pos.1, y := pos.2,
       hp := intJs (jfloor (tmpl.hp * totalScaling)),
       maxHp := intJs (jfloor (tmpl.hp * totalScaling)),
       speed := tmpl.speed * min totalScaling (5/2),
       damage := intJs (jfloor (tmpl.damage * totalScaling)),
       size := tmpl.size,
       xpValue := jfloor (tmpl.xpValue * max totalScaling (6/5)),
       type := selectedType,
       wave := waveNumber,
       facingLeft := false }] }

def spawnEnemies (w : World) : World :=
  if maxEnemiesCap w ≤ w.enemies.length then w
  else
    let (r, w) := rand w
    if r < finalSpawnRate w then spawnNewEnemy w else w

/-! ## Enemy update (`updateEnemies`, game.js lines 646–717)

`enemies.forEach` caches the length at entry; the callback can splice the
array it iterates (`splice(index, 1)` on the contact hit and again on the
death check), after which the local `enemy` variable still aliases the
removed object.  `enemyStep` is one callback invocation at original index
`k`; it is skipped when `k` is no longer inside the current array. -/

/-- The `dropXP(x, y, value)` (game.js lines 758–768): a 50% Bernoulli trial
creates a 600-frame orb. -/
def dropXP (w : World) (x y : JsNum) (value : ℤ) : World :=
  let (r, w) := rand w
  if r < 1/2 then
    { w with xpOrbs := w.xpOrbs ++ [{ x := x, y := y, value := value, life := 600 }] }
  else w

/-- Claw hit radius: 20 at clawOrbit level ≥ 4, else 16 (game.js 687). -/
def clawHitSize (lvl : ℕ) : JsNum := if 4 ≤ lvl then 20 else 16

/-- Damage of one claw hit: base 12, ×1.25 at level ≥ 2, ×1.3 at level
≥ 4 (game.js lines 689–692). -/
def clawDamage (lvl : ℕ) : JsNum :=
  12 * (if 2 ≤ lvl then 5/4 else 1) * (if 4 ≤ lvl then 13/10 else 1)

/-- Total claw damage applied to an enemy at its current position during
one `updateEnemies` iteration (game.js lines 684–703): each claw within
`clawHitSize + enemy.size` contributes `clawDamage` once.  The level-5
afterimage is a `setTimeout` outside the tick (see the header). -/
def clawDamageTo (co : ClawOrbitState) (e : Enemy) : JsNum :=
  if 0 < co.level then
    co.claws.foldl
      (fun acc c =>
        if hypot (c.x - e.x) (c.y - e.y) < clawHitSize co.level + e.size then
          acc + clawDamage co.level
        else acc)
      0
  else 0

/-- The movement part of the callback (game.js lines 649–661): step
`speed` along the unit vector toward the player, updating the crow's
facing; enemies already at the player's exact position do not move. -/
def movedEnemy (w : World) (e0 : Enemy) : Enemy :=
  let dx := w.player.x - e0.x
  let dy := w.player.y - e0.y
  let dist := hypot dx dy
  if 0 < dist then
    { e0 with
      x := e0.x + dx / dist * e0.speed,
      y := e0.y + dy / dist * e0.speed,
      facingLeft := if e0.type = EnemyType.crow then decide (dx < 0) else e0.facingLeft }
  else e0

/-- One `updateEnemies` callback body at original index `k`, applied to
the enemy found there (game.js lines 647–711): move toward the player; on
contact (pre-move `dist < size + 20`, player not invulnerable) damage the
player by `max(1, floor(damage × damageReduction))`, grant 60
invulnerability frames, splice the enemy out (it stays aliased by the
local variable) and call `gameOver()` when hp drops to ≤ 0; then apply
claw hits to the (possibly detached) enemy; finally the death check drops
XP, splices at `k` again and counts a kill. -/
def enemyStepCore (w : World) (k : ℕ) (e0 : Enemy) : World :=
    let dx := w.player.x - e0.x
    let dy := w.player.y - e0.y
    let dist := hypot dx dy
    let e1 := movedEnemy w e0
    let w1 := { w with enemies := w.enemies.set k e1 }
    let contact : Bool := decide (dist < e1.size + 20) && decide (w1.player.invulnerable = 0)
    let w2 :=
      if contact then
        let damageReduction : JsNum := if 2 ≤ w1.abilities.catNap.level then 95/100 else 1
        let finalDamage : ℤ := max 1 (jfloor (e1.damage * damageReduction))
        let w' := { w1 with
          player := { w1.player with
            hp := w1.player.hp - intJs finalDamage,
            invulnerable := 60 },
          enemies := w1.enemies.eraseIdx k }
        if w'.player.hp ≤ 0 then gameOverM w' else w'
      else w1
    let e2 := { e1 with hp := e1.hp - clawDamageTo w2.abilities.clawOrbit e1 }
    let w3 := if contact then w2 else { w2 with enemies := w2.enemies.set k e2 }
    if e2.hp ≤ 0 then
      let w4 := dropXP w3 e2.x e2.y e2.xpValue
      { w4 with enemies := w4.enemies.eraseIdx k, kills := w4.kills + 1 }
    else w3

/-- The callback is invoked only while index `k` is still inside the
current array. -/
def enemyStep (w : World) (k : ℕ) : World :=
  match w.enemies[k]? with
  | none => w
  | some e0 => enemyStepCore w k e0

/-- The `forEach` driver: visit original indices `0 … fuel-1`. -/
def updateEnemiesLoop : ℕ → ℕ → World → World
  | 0, _, w => w
  | f + 1, k, w => updateEnemiesLoop f (k + 1) (enemyStep w k)

/-- The `updateEnemies()` (game.js lines 646–717): the forEach pass followed
by the invulnerability countdown. -/
def updateEnemies (w : World) : World :=
  let w := updateEnemiesLoop w.enemies.length 0 w
  if 0 < w.player.invulnerable then
    { w with player := { w.player with invulnerable := w.player.invulnerable - 1 } }
  else w

/-! ## Projectile update (`updateProjectiles`, game.js lines 724–749) -/

/-- The inner `enemies.forEach` of one projectile iteration (game.js
lines 731–740): with `p` the already-moved projectile captured at
original index `k`, every enemy within `size + 5` takes `p.damage`, and
each such hit of a non-piercing projectile executes
`projectiles.splice(k, 1)` on the *current* projectile list — the first
splice removes `p` itself, later splices in the same scan remove whatever
has shifted into index `k` (a no-op once `k` is out of range). -/
def projScan (p : Projectile) (k : ℕ) :
    List Enemy → List Projectile → List Enemy × List Projectile
  | [], ps => ([], ps)
  | e :: rest, ps =>
    if hypot (p.x - e.x) (p.y - e.y) < e.size + 5 then
      let e' := { e with hp := e.hp - p.damage }
      let ps' := if p.pierce then ps else ps.eraseIdx k
      let r := projScan p k rest ps'
      (e' :: r.1, r.2)
    else
      let r := projScan p k rest ps
      (e :: r.1, r.2)

/-- Expiry test of game.js lines 743–745: out of bounds by more than 50,
or past the assigned range (`life > undefined` is false for
hairballs). -/
def projExpired (p : Projectile) : Bool :=
  decide (p.x < -50) || decide (canvasWidth + 50 < p.x) ||
  decide (p.y < -50) || decide (canvasHeight + 50 < p.y) ||
  (match p.range with
   | some r => decide (r < natJs p.life)
   | none => false)

/-- One `updateProjectiles` callback body at original index `k` (game.js
lines 725–748): advance the projectile, scan the enemies, then the expiry
check splices at `k` (possibly hitting a shifted-in projectile when the
scan already removed this one). -/
def projStep (w : World) (k : ℕ) : World :=
  match w.projectiles[k]? with
  | none => w
  | some p0 =>
    let p1 := { p0 with x := p0.x + p0.dx, y := p0.y + p0.dy, life := p0.life + 1 }
    let w1 := { w with projectiles := w.projectiles.set k p1 }
    let scanned := projScan p1 k w1.enemies w1.projectiles
    let w2 := { w1 with enemies := scanned.1, projectiles := scanned.2 }
    if projExpired p1 then
      { w2 with projectiles := w2.projectiles.eraseIdx k }
    else w2

/-- The `forEach` driver for projectiles. -/
def updateProjectilesLoop : ℕ → ℕ → World → World
  | 0, _, w => w
  | f + 1, k, w => updateProjectilesLoop f (k + 1) (projStep w k)

/-- The `updateProjectiles()` (game.js lines 724–749). -/
def updateProjectiles (w : World) : World :=
  updateProjectilesLoop w.projectiles.length 0 w

/-! ## XP orbs and progression (`updateXP`, game.js lines 775–802) -/

/-- One `updateXP` callback body at original index `k` (game.js lines
776–801): attract within 30, collect within 20 (credit the value, splice,
and trigger `levelUp()` at the threshold), then decrement the orb's
lifetime (through the possibly detached alias) and splice on expiry. -/
def orbStep (w : World) (k : ℕ) : World :=
  match w.xpOrbs[k]? with
  | none => w
  | some o0 =>
    let dist := hypot (o0.x - w.player.x) (o0.y - w.player.y)
    let o1 :=
      if dist < 30 then
        { o0 with
          x := o0.x + (w.player.x - o0.x) * (1/10),
          y := o0.y + (w.player.y - o0.y) * (1/10) }
      else o0
    let w1 := { w with xpOrbs := w.xpOrbs.set k o1 }
    let collected : Bool := decide (dist < 20)
    let w2 :=
      if collected then
        let w' := { w1 with
          player := { w1.player with xp := w1.player.xp + o1.value },
          xpOrbs := w1.xpOrbs.eraseIdx k }
        if (w'.player.xpNext : ℤ) ≤ w'.player.xp then levelUp w' else w'
      else w1
    let o2 := { o1 with life := o1.life - 1 }
    let w3 := if collected then w2 else { w2 with xpOrbs := w2.xpOrbs.set k o2 }
    if o2.life ≤ 0 then { w3 with xpOrbs := w3.xpOrbs.eraseIdx k } else w3

/-- The `forEach` driver for XP orbs. -/
def updateXPLoop : ℕ → ℕ → World → World
  | 0, _, w => w
  | f + 1, k, w => updateXPLoop f (k + 1) (orbStep w k)

/-- The `updateXP()` (game.js lines 775–802). -/
def updateXP (w : World) : World :=
  updateXPLoop w.xpOrbs.length 0 w

/-! ## Particles (`updateParticles`, game.js lines 897–904) -/

/-- One `updateParticles` callback body at original index `k`. -/
def particleStep (w : World) (k : ℕ) : World :=
  match w.particles[k]? with
  | none => w
  | some q0 =>
    let q1 := { q0 with life := q0.life - 1 }
    let w1 := { w with particles := w.particles.set k q1 }
    if q1.life ≤ 0 then { w1 with particles := w1.particles.eraseIdx k } else w1

/-- The `forEach` driver for particles. -/
def updateParticlesLoop : ℕ → ℕ → World → World
  | 0, _, w => w
  | f + 1, k, w => updateParticlesLoop f (k + 1) (particleStep w k)

/-- The `updateParticles()` (game.js lines 897–904). -/
def updateParticles (w : World) : World :=
  updateParticlesLoop w.particles.length 0 w

/-! ## Tick driver (`gameLoop`, game.js lines 1230–1247) -/

/-- One `gameLoop` frame: return immediately when the game is over; when
paused, skip every update (the remaining `render()` and `updateUI()`
calls only read the world and draw to the canvas/DOM, source lines
911–1149, so the world is untouched); otherwise advance time and run the
update pipeline in source order. -/
def gameLoopTick (trig : JsNum → JsNum → JsNum × JsNum) (w : World) : World :=
  if w.gameOver then w
  else if w.paused then w
  else
    updateParticles (updateXP (updateProjectiles (updateEnemies
      (spawnEnemies (updateAbilities trig (updatePlayerW
        { w with time := w.time + 1 }))))))

/-! ## Concrete worlds for witnesses and counterexamples -/

/-- The fresh player of `startGame()` (game.js lines 1183–1195). -/
def basePlayer : Player :=
  { x := 600, y := 400, hp := 100, maxHp := 100, level := 1, xp := 0,
    xpNext := 10, speed := 3, facingLeft := false, invulnerable := 0 }

/-- The fresh abilities of `startGame()` (game.js lines 1202–1215):
Claw Orbit starts at level 1, everything else at 0, cooldowns cleared. -/
def baseAbilities : Abilities :=
  { clawOrbit := { level := 1, claws := mkClaws 1, rotation := 0 },
    whiskerWhip := { level := 0, cooldown := 0 },
    hairballBurst := { level := 0, cooldown := 0 },
    pawSlam := { level := 0, cooldown := 0 },
    catNap := { level := 0, cooldown := 0 } }

/-- No key held. -/
def noKeys : Keys :=
  { w := false, a := false, s := false, d := false,
    up := false, down := false, left := false, right := false }

/-- The world right after `startGame()` (game.js lines 1180–1223), with
an arbitrary fixed random stream. -/
def baseWorld : World :=
  { player := basePlayer, time := 0, kills := 0, paused := false,
    gameOver := false, abilities := baseAbilities, enemies := [],
    projectiles := [], xpOrbs := [], particles := [],
    levelUpChoices := [], storage := none, keys := noKeys,
    rng := fun _ => 1, rngIdx := 0 }

/-- A freshly spawned wave-1 Street Rat at a given position (stats from
`enemyTypes.rat` with `totalScaling = 1`). -/
def ratAt (x y : JsNum) : Enemy :=
  { x := x, y := y, hp := 12, maxHp := 12, speed := 7/10, damage := 2,
    size := 8, xpValue := 2, type := .rat, wave := 1, facingLeft := false }

/-- A wave-1 Stray Dog at a given position. -/
def dogAt (x y : JsNum) : Enemy :=
  { x := x, y := y, hp := 30, maxHp := 30, speed := 3/2, damage := 6,
    size := 12, xpValue := 4, type := .dog, wave := 1, facingLeft := false }

/-- C1 counterexample state: one non-piercing whisker-whip projectile at
the player, and two full-health rats that will both be inside its
`size + 5 = 13` hit circle after the projectile advances to (604, 400)
(distances 6 and 10). -/
def projCexWorld : World :=
  { baseWorld with
    enemies := [{ ratAt 610 400 with hp := 100, maxHp := 100 },
                { ratAt 604 410 with hp := 100, maxHp := 100 }],
    projectiles :=
      [{ x := 600, y := 400, dx := 4, dy := 0, damage := 25,
         range := some 80, pierce := false, bounce := false,
         explode := false, type := .whip, life := 0 }] }

/-- C2 counterexample state: Claw Orbit at level 4 with one claw at
(655, 400); a 12-hp rat at (627.9, 400), i.e. 27.9 from the player
(contact: 27.9 < 28) and, after stepping 0.7 toward the player, 27.8
from that claw (claw hit: 27.8 < 20 + 8); and a second, distant dog. -/
def contactCexWorld : World :=
  { baseWorld with
    abilities := { baseAbilities with clawOrbit :=
      { level := 4, rotation := 0, claws :=
        [{ angleTurns := 0, distance := 55, x := 655, y := 400 },
         { angleTurns := 1/4, distance := 55, x := 600, y := 455 },
         { angleTurns := 1/2, distance := 55, x := 545, y := 400 },
         { angleTurns := 3/4, distance := 55, x := 600, y := 345 }] } },
    enemies := [ratAt (6279/10) 400, dogAt 100 100] }

/-- C3 counterexample state: a level-5 player about to level up with
`xpNext = 13` (13·1.15 and 13·1.18 floor to different values and both
products are far from integers, so double rounding cannot interfere). -/
def levelCexWorld : World :=
  { baseWorld with player :=
    { basePlayer with level := 5, xp := 13, xpNext := 13, hp := 50 } }

/-- C9 witness state: a paused, running world. -/
def pausedWorld : World :=
  { baseWorld with
    paused := true, enemies := [ratAt 620 400], time := 7 }

/-- C2 witness state: a single rat in contact range (distance 20 < 28)
with the untouched starting abilities (claws sit at the origin, far from
the rat, so no claw hit lands). -/
def contactWitWorld : World :=
  { baseWorld with enemies := [ratAt 620 400] }

/-- C5 witness state. -/
def spawnWitWorld : World :=
  { baseWorld with rng := fun _ => 0 }

/-- C6/C7 witness state: mid-run world with a valid stored high score. -/
def storeWitWorld : World :=
  { baseWorld with kills := 5, storage := some "3" }

/-! ## Small list facts used by the claim proofs -/

/-- Erasing the index that was just overwritten erases the overwrite. -/
theorem eraseIdx_set_same {α : Type} :
    ∀ (l : List α) (i : ℕ) (a : α), (l.set i a).eraseIdx i = l.eraseIdx i
  | [], _, _ => rfl
  | _ :: _, 0, _ => rfl
  | b :: t, i + 1, a => congrArg (b :: ·) (eraseIdx_set_same t i a)

/-- The `map` commutes with `eraseIdx`. -/
theorem map_eraseIdx {α β : Type} (f : α → β) :
    ∀ (l : List α) (i : ℕ), (l.eraseIdx i).map f = (l.map f).eraseIdx i
  | [], _ => rfl
  | _ :: _, 0 => rfl
  | b :: t, i + 1 => congrArg (f b :: ·) (map_eraseIdx f t i)

/-- In a duplicate-free list, the element at `i` is gone after erasing
index `i`. -/
theorem getElem?_not_mem_eraseIdx {α : Type} :
    ∀ (l : List α) (i : ℕ) (x : α),
      l.Nodup → l[i]? = some x → x ∉ l.eraseIdx i
  | [], i, x, _, h => by simp at h
  | a :: t, 0, x, hnd, h => by
    simp only [List.getElem?_cons_zero, Option.some.injEq] at h
    subst h
    simpa [List.eraseIdx] using (List.nodup_cons.mp hnd).1
  | a :: t, i + 1, x, hnd, h => by
    have h' : t[i]? = some x := by simpa using h
    have hx : x ∈ t := List.getElem?_mem h'
    have hnd' := List.nodup_cons.mp hnd
    intro hmem
    rcases List.mem_cons.mp hmem with hxa | hxt
    · exact hnd'.1 (hxa ▸ hx)
    · exact getElem?_not_mem_eraseIdx t i x hnd'.2 h' hxt

/-- The `Math.max x y ≤ z` from both bounds. -/
theorem jsNum_max_le {a b c : JsNum} (h1 : a ≤ c) (h2 : b ≤ c) : max a b ≤ c := by
  show (if a ≤ b then b else a) ≤ c
  by_cases h : a ≤ b
  · simpa [h] using h2
  · simpa [h] using h1

/-! ## C10 — player clamp invariant -/

/-- C10: For every key-press state, after every player-movement update
the player's position is clamped to the rectangle
`[30, canvas.width − 30] × [30, canvas.height − 30]`; the player can
never leave the visible bounds, an invariant every tick maintains. -/
theorem updatePlayer_in_bounds (keys : Keys) (p : Player) :
    30 ≤ (movePlayer keys p).x ∧ (movePlayer keys p).x ≤ canvasWidth - 30 ∧
    30 ≤ (movePlayer keys p).y ∧ (movePlayer keys p).y ≤ canvasHeight - 30 := by
  have hW : (30 : JsNum) ≤ canvasWidth - 30 := by decide
  have hH : (30 : JsNum) ≤ canvasHeight - 30 := by decide
  simp only [movePlayer]
  exact ⟨jsNum_le_max_left _ _,
         jsNum_max_le hW (jsNum_min_le_left _ _),
         jsNum_le_max_left _ _,
         jsNum_max_le hH (jsNum_min_le_left _ _)⟩

/-! ## C6 — heals never push hp above maxHp = 100 -/

/-- C6: For every reachable state with `player.hp ≤ 100` before the heal
(only `maxHp = 100` is actually needed — both heals clamp with
`Math.min(100, ·)` unconditionally), after the Cat Nap heal or the
level-up heal, `player.hp ≤ player.maxHp = 100` holds. -/
theorem heal_hp_capped (w : World) (h : w.player.maxHp = 100) :
    ((catNapFire w).player.hp ≤ (catNapFire w).player.maxHp ∧
      (catNapFire w).player.maxHp = 100) ∧
    ((levelUp w).player.hp ≤ (levelUp w).player.maxHp ∧
      (levelUp w).player.maxHp = 100) := by
  refine ⟨⟨?_, ?_⟩, ?_, ?_⟩
  · by_cases h4 : 4 ≤ w.abilities.catNap.level <;>
      simp [catNapFire, h4, h, jsNum_min_le_left]
  · by_cases h4 : 4 ≤ w.abilities.catNap.level <;> simp [catNapFire, h4, h]
  · simp [levelUp, showLevelUpModal, jsNum_min_le_left]
  · simp [levelUp, showLevelUpModal]

/-- Witness for C6 at the fresh world. -/
theorem heal_hp_capped_witness :
    baseWorld.player.maxHp = 100 ∧
    (catNapFire baseWorld).player.hp ≤ (catNapFire baseWorld).player.maxHp ∧
    (levelUp baseWorld).player.hp ≤ (levelUp baseWorld).player.maxHp :=
  ⟨by decide, (heal_hp_capped baseWorld (by decide)).1.1,
    (heal_hp_capped baseWorld (by decide)).2.1⟩

/-! ## C3 — level-up bookkeeping -/

/-- C3 (amended): every level-up increments the level, subtracts
`xpNext` from `xp` carrying the remainder, sets the new `xpNext` to
`floor(xpNext·1.12)` for new level ≤ 5, `floor(xpNext·1.15)` for new
level 6–10, `floor(xpNext·1.18)` beyond, heals +20 capped at 100, and
sets the pause flag. -/
theorem levelUp_spec (w : World) :
    (levelUp w).player.level = w.player.level + 1 ∧
    (levelUp w).player.xp = w.player.xp - (w.player.xpNext : ℤ) ∧
    (levelUp w).player.xpNext =
      (if w.player.level + 1 ≤ 5 then w.player.xpNext * 112 / 100
       else if w.player.level + 1 ≤ 10 then w.player.xpNext * 115 / 100
       else w.player.xpNext * 118 / 100) ∧
    (levelUp w).player.hp = min 100 (w.player.hp + 20) ∧
    (levelUp w).player.maxHp = 100 ∧
    (levelUp w).paused = true := by
  refine ⟨?_, ?_, ?_, ?_, ?_, ?_⟩ <;> simp [levelUp, showLevelUpModal]

/-- C3 counterexample: at `xpNext = 13`, leveling from 5 to 6 stores
`floor(13·1.15) = 14`, while the claimed `floor(13·1.18)` is 15 — the
mid-game multiplier is 1.15, not 1.18. -/
theorem levelUp_claim_cex :
    levelCexWorld.player.level + 1 ≤ 10 ∧
    levelCexWorld.player.xpNext = 13 ∧
    (levelUp levelCexWorld).player.xpNext = 14 ∧
    jfloor (natJs levelCexWorld.player.xpNext * (118/100)) = 15 := by decide

/-! ## C9 — a paused tick freezes the world -/

/-- C9: while the pause flag is set and the game is not over, one
`gameLoop` frame leaves the whole simulation state — time, player,
abilities, and all four entity collections — untouched; only rendering
and UI reads happen. -/
theorem paused_tick_frozen (trig : JsNum → JsNum → JsNum × JsNum) (w : World)
    (hp : w.paused = true) (hg : w.gameOver = false) :
    gameLoopTick trig w = w := by
  simp [gameLoopTick, hp, hg]

/-- Witness for C9: a concrete paused mid-run world. -/
theorem paused_tick_frozen_witness :
    pausedWorld.paused = true ∧ pausedWorld.gameOver = false ∧
    gameLoopTick (fun _ _ => (1, 0)) pausedWorld = pausedWorld :=
  ⟨rfl, rfl, paused_tick_frozen (fun _ _ => (1, 0)) pausedWorld rfl rfl⟩

/-! ## C5 — population cap -/

/-- A successful spawn roll touches neither time nor player and appends
exactly one enemy. -/
theorem spawnNewEnemy_shape (w : World) :
    (spawnNewEnemy w).time = w.time ∧ (spawnNewEnemy w).player = w.player ∧
    (spawnNewEnemy w).enemies.length = w.enemies.length + 1 := by
  unfold spawnNewEnemy
  by_cases hA : 4 ≤ w.time / 1500 + 1 ∧ 5 ≤ w.player.level
  · simp only [if_pos hA, rand]
    simp
  · by_cases hB : 2 ≤ w.time / 1500 + 1 ∧ 2 ≤ w.player.level
    · simp only [if_neg hA, if_pos hB, rand]
      simp
    · simp only [if_neg hA, if_neg hB, rand]
      simp

/-- A spawn attempt never touches time or level, and either leaves the
enemy list unchanged or (only below the cap) appends exactly one
enemy. -/
theorem spawn_base (w : World) :
    (spawnEnemies w).time = w.time ∧
    (spawnEnemies w).player.level = w.player.level ∧
    ((spawnEnemies w).enemies = w.enemies ∨
      ((spawnEnemies w).enemies.length = w.enemies.length + 1 ∧
        w.enemies.length < maxEnemiesCap w)) := by
  unfold spawnEnemies
  by_cases hcap : maxEnemiesCap w ≤ w.enemies.length
  · rw [if_pos hcap]
    exact ⟨rfl, rfl, Or.inl rfl⟩
  · rw [if_neg hcap]
    simp only [rand]
    by_cases hr : w.rng w.rngIdx < finalSpawnRate { w with rngIdx := w.rngIdx + 1 }
    · rw [if_pos hr]
      obtain ⟨ht, hp, hlen⟩ := spawnNewEnemy_shape { w with rngIdx := w.rngIdx + 1 }
      refine ⟨ht, by rw [hp], Or.inr ⟨hlen, not_le.mp hcap⟩⟩
    · rw [if_neg hr]
      exact ⟨rfl, rfl, Or.inl rfl⟩

/-- C5: after a spawn attempt the enemy count is still at most
`min(15 + 5·floor(time/1800) + 3·floor(level/3), 50)` (granted it was
before), the cap itself is unchanged by the attempt, and at most one
enemy is added per tick. -/
theorem spawnEnemies_cap_invariant (w : World)
    (h : w.enemies.length ≤ maxEnemiesCap w) :
    (spawnEnemies w).enemies.length ≤ maxEnemiesCap (spawnEnemies w) ∧
    maxEnemiesCap (spawnEnemies w) = maxEnemiesCap w ∧
    (spawnEnemies w).enemies.length ≤ w.enemies.length + 1 := by
  obtain ⟨ht, hl, hcase⟩ := spawn_base w
  have hcap : maxEnemiesCap (spawnEnemies w) = maxEnemiesCap w := by
    simp [maxEnemiesCap, ht, hl]
  rcases hcase with he | ⟨hlen, hlt⟩
  · rw [hcap, he]
    exact ⟨h, rfl, Nat.le_succ _⟩
  · rw [hcap, hlen]
    exact ⟨hlt, rfl, Nat.le_refl _⟩

/-- Witness for C5 at the fresh world (empty enemy list, cap 15). -/
theorem spawnEnemies_cap_invariant_witness :
    spawnWitWorld.enemies.length ≤ maxEnemiesCap spawnWitWorld ∧
    (spawnEnemies spawnWitWorld).enemies.length ≤
      maxEnemiesCap (spawnEnemies spawnWitWorld) :=
  ⟨by decide, (spawnEnemies_cap_invariant spawnWitWorld (by decide)).1⟩

/-! ## C7/C8 — high-score persistence -/

/-- The ten decimal digit characters. -/
def digitChars : List Char := ['0','1','2','3','4','5','6','7','8','9']

theorem mem_digitChars_ofNat (m : ℕ) (hm : m < 10) :
    Char.ofNat (48 + m) ∈ digitChars := by
  interval_cases m <;> decide

theorem toNat_ofNat_digit (m : ℕ) (hm : m < 10) :
    (Char.ofNat (48 + m)).toNat = 48 + m := by
  interval_cases m <;> decide

theorem digitChars_not_ws {c : Char} (h : c ∈ digitChars) :
    Char.isWhitespace c = false := by
  fin_cases h <;> decide

theorem digitChars_isDigit {c : Char} (h : c ∈ digitChars) :
    Char.isDigit c = true := by
  fin_cases h <;> decide

theorem digitChars_ne_sign {c : Char} (h : c ∈ digitChars) :
    c ≠ '-' ∧ c ≠ '+' := by
  fin_cases h <;> decide

/-- Every character `natDigitsRev` produces is a decimal digit. -/
theorem natDigitsRev_mem : ∀ f n c, c ∈ natDigitsRev f n → c ∈ digitChars := by
  intro f
  induction f with
  | zero => intro n c h; simp [natDigitsRev] at h
  | succ f ih =>
    intro n c h
    unfold natDigitsRev at h
    by_cases hn : n < 10
    · rw [if_pos hn] at h
      simp only [List.mem_singleton] at h
      subst h
      exact mem_digitChars_ofNat n hn
    · rw [if_neg hn] at h
      rcases List.mem_cons.mp h with h1 | h2
      · subst h1
        exact mem_digitChars_ofNat (n % 10) (Nat.mod_lt _ (by norm_num))
      · exact ih (n / 10) c h2

/-- The `natDigitsRev` never returns the empty list. -/
theorem natDigitsRev_ne_nil (f n : ℕ) (hf : 0 < f) : natDigitsRev f n ≠ [] := by
  cases f with
  | zero => omega
  | succ f =>
    unfold natDigitsRev
    by_cases h : n < 10 <;> simp [h]

/-- Value of a least-significant-first digit list. -/
def valLSD (cs : List Char) : ℕ :=
  cs.foldr (fun c a => a * 10 + (c.toNat - 48)) 0

theorem digitsVal_reverse (cs : List Char) :
    digitsVal cs.reverse = valLSD cs := by
  unfold digitsVal valLSD
  rw [List.foldl_reverse]

/-- The `natDigitsRev` computes the decimal expansion. -/
theorem valLSD_natDigitsRev : ∀ f n, n < 10 ^ f → valLSD (natDigitsRev f n) = n := by
  intro f
  induction f with
  | zero =>
    intro n hn
    interval_cases n
    rfl
  | succ f ih =>
    intro n hn
    unfold natDigitsRev
    by_cases h10 : n < 10
    · rw [if_pos h10]
      show 0 * 10 + ((Char.ofNat (48 + n)).toNat - 48) = n
      rw [toNat_ofNat_digit n h10]
      omega
    · rw [if_neg h10]
      show valLSD (natDigitsRev f (n / 10)) * 10 + ((Char.ofNat (48 + n % 10)).toNat - 48) = n
      have hdiv : n / 10 < 10 ^ f := by
        apply (Nat.div_lt_iff_lt_mul (by norm_num : 0 < 10)).mpr
        calc n < 10 ^ (f + 1) := hn
        _ = 10 ^ f * 10 := by rw [pow_succ]
      rw [ih (n / 10) hdiv, toNat_ofNat_digit _ (Nat.mod_lt _ (by norm_num))]
      omega

/-- An all-digit list is its own maximal digit prefix. -/
theorem takeWhile_digits :
    ∀ (l : List Char), (∀ c ∈ l, c ∈ digitChars) →
      l.takeWhile Char.isDigit = l := by
  intro l
  induction l with
  | nil => intro _; rfl
  | cons c t ih =>
    intro h
    rw [List.takeWhile_cons, digitChars_isDigit (h c (List.mem_cons_self c t))]
    simp only [if_true]
    rw [ih fun d hd => h d (List.mem_cons_of_mem c hd)]

/-- The decimal string of `n` is never empty. -/
theorem natReprM_ne_empty (n : ℕ) : natReprM n ≠ "" := by
  intro h
  have hdata : (natDigitsRev (n + 1) n).reverse = [] := congrArg String.data h
  rw [List.reverse_eq_nil_iff] at hdata
  exact natDigitsRev_ne_nil (n + 1) n (Nat.succ_pos n) hdata

/-- The `parseInt` reads the stored decimal string back. -/
theorem parse_natReprM (n : ℕ) : parseIntStr (natReprM n) = some (n : ℤ) := by
  have h1 : n < 10 ^ n + 1 := Nat.lt_succ_of_le (Nat.le_of_lt_succ (Nat.lt_succ_of_lt (Nat.lt_pow_self (by norm_num) n)))
  have hlt : n < 10 ^ (n + 1) :=
    lt_of_lt_of_le (Nat.lt_pow_self (by norm_num) n)
      (Nat.pow_le_pow_right (by norm_num) (Nat.le_succ n))
  have hmem : ∀ c ∈ (natDigitsRev (n + 1) n).reverse, c ∈ digitChars := by
    intro c hc
    exact natDigitsRev_mem _ _ _ (List.mem_reverse.mp hc)
  obtain ⟨c, t, hct⟩ := List.exists_cons_of_ne_nil
    (fun h => natDigitsRev_ne_nil (n + 1) n (Nat.succ_pos n)
      (List.reverse_eq_nil_iff.mp h))
  have hcd : c ∈ digitChars := hmem c (hct ▸ List.mem_cons_self c t)
  unfold parseIntStr natReprM
  show (let cs := ((natDigitsRev (n + 1) n).reverse).dropWhile Char.isWhitespace
    match cs.head? with
    | none => none
    | some c =>
      if c = '-' then (parseLeadingDigits cs.tail).map (fun v => -(v : ℤ))
      else if c = '+' then (parseLeadingDigits cs.tail).map (fun v => (v : ℤ))
      else (parseLeadingDigits cs).map (fun v => (v : ℤ))) = some (n : ℤ)
  rw [hct, List.dropWhile_cons, digitChars_not_ws hcd]
  simp only [Bool.false_eq_true, if_false, List.head?_cons]
  rw [if_neg (digitChars_ne_sign hcd).1, if_neg (digitChars_ne_sign hcd).2]
  have htake : (c :: t).takeWhile Char.isDigit = c :: t :=
    takeWhile_digits (c :: t) (hct ▸ hmem)
  unfold parseLeadingDigits
  rw [htake]
  simp only [List.isEmpty_cons, if_false, Bool.false_eq_true]
  rw [← hct, digitsVal_reverse, valLSD_natDigitsRev (n + 1) n hlt]
  simp

/-- C8 (the claim is right, the code is not): an absent value reads back
as 0 and a stored plain number round-trips, but an invalid stored string
such as "abc" makes `getHighScore` return `NaN` (`none` here), not an
integer and not 0 — contradicting its own doc comment
`@returns ... (defaults to 0 if absent or invalid)` at game.js lines
160–162. -/
theorem getHighScore_invalid_is_nan :
    getHighScoreM none = some 0 ∧
    getHighScoreM (some "41") = some 41 ∧
    getHighScoreM (some "") = some 0 ∧
    getHighScoreM (some "abc") = none := by decide

/-- C7: after `gameOver()`, the persisted high score reads back as
`max(previous high score, kills at death)`, and the storage cell is
overwritten exactly when the final kill count strictly exceeds the
previous value (hypothesis: the stored value parses, i.e. is a valid
previous score — the `NaN` comparison short-circuit is C8's story). -/
theorem gameOver_highscore (w : World) (v : ℤ)
    (h : getHighScoreM w.storage = some v) :
    getHighScoreM (gameOverM w).storage = some (max v (w.kills : ℤ)) ∧
    (gameOverM w).storage =
      (if v < (w.kills : ℤ) then some (natReprM w.kills) else w.storage) := by
  have hgo : (gameOverM w).storage =
      (if v < (w.kills : ℤ) then some (natReprM w.kills) else w.storage) := by
    simp only [gameOverM, h, gt_iff_lt]
  refine ⟨?_, hgo⟩
  rw [hgo]
  by_cases hk : v < (w.kills : ℤ)
  · rw [if_pos hk]
    simp only [getHighScoreM]
    rw [if_neg (natReprM_ne_empty w.kills), parse_natReprM,
      max_eq_right (le_of_lt hk)]
  · rw [if_neg hk, h, max_eq_left (not_lt.mp hk)]

/-- Witness for C7: stored "3", dying with 5 kills. -/
theorem gameOver_highscore_witness :
    getHighScoreM storeWitWorld.storage = some 3 ∧
    getHighScoreM (gameOverM storeWitWorld).storage =
      some (max 3 (storeWitWorld.kills : ℤ)) :=
  ⟨by decide, (gameOver_highscore storeWitWorld 3 (by decide)).1⟩

/-! ## C4 — upgrade offers and selection -/

/-- The offer pool is exactly the below-max abilities, in order. -/
theorem availableUpgrades_keys (ab : Abilities) :
    (availableUpgrades ab).map UpgradeChoice.key =
      allAbilityKeys.filter fun k => abilityLevel ab k < maxLevel := by
  unfold availableUpgrades
  rw [List.map_map]
  exact List.map_id _

/-- At most two choices are ever offered. -/
theorem selectTwo_length (pool : List UpgradeChoice) (r1 r2 : JsNum) :
    (selectTwoUpgrades pool r1 r2).1.length ≤ 2 := by
  simp only [selectTwoUpgrades]
  split
  · simp
  · split <;> simp

/-- No ability key appears twice in one offer. -/
theorem selectTwo_keys_nodup (pool : List UpgradeChoice)
    (hnd : (pool.map UpgradeChoice.key).Nodup) (r1 r2 : JsNum) :
    (((selectTwoUpgrades pool r1 r2).1.filterMap id).map
      UpgradeChoice.key).Nodup := by
  simp only [selectTwoUpgrades]
  split
  · simp
  · split
    · cases hc1 : pool[(jfloor (r1 * natJs pool.length)).toNat]? <;> simp
    · cases hc1 : pool[(jfloor (r1 * natJs pool.length)).toNat]? with
      | none =>
        cases hc2 : (pool.eraseIdx (jfloor (r1 * natJs pool.length)).toNat)[
          (jfloor (r2 * natJs (pool.eraseIdx
            (jfloor (r1 * natJs pool.length)).toNat).length)).toNat]? <;>
          simp [hc1, hc2]
      | some u1 =>
        cases hc2 : (pool.eraseIdx (jfloor (r1 * natJs pool.length)).toNat)[
          (jfloor (r2 * natJs (pool.eraseIdx
            (jfloor (r1 * natJs pool.length)).toNat).length)).toNat]? with
        | none => simp [hc1, hc2]
        | some u2 =>
          have hk1 : (pool.map UpgradeChoice.key)[
              (jfloor (r1 * natJs pool.length)).toNat]? = some u1.key := by
            rw [List.getElem?_map, hc1]
            rfl
          have hmem2 : u2 ∈ pool.eraseIdx (jfloor (r1 * natJs pool.length)).toNat :=
            List.getElem?_mem hc2
          have hkey2 : u2.key ∈
              (pool.map UpgradeChoice.key).eraseIdx
                (jfloor (r1 * natJs pool.length)).toNat := by
            rw [← map_eraseIdx]
            exact List.mem_map_of_mem _ hmem2
          have hnot := getElem?_not_mem_eraseIdx _ _ _ hnd hk1
          have hne : u1.key ≠ u2.key := fun he => hnot (he ▸ hkey2)
          simp [hc1, hc2, hne]

/-- C4: the candidate pool is exactly the abilities below max level 5 (a
level-5 ability never appears); at most two are drawn, without
replacement, so no ability appears twice in one offer; and applying a
selection increments exactly the chosen ability's level by exactly 1,
leaving every other ability's level unchanged. -/
theorem upgrade_offer_spec (ab : Abilities) (r1 r2 : JsNum) (w : World)
    (k q : AbilityKey) :
    ((availableUpgrades ab).map UpgradeChoice.key =
      allAbilityKeys.filter fun a => abilityLevel ab a < maxLevel) ∧
    (selectTwoUpgrades (availableUpgrades ab) r1 r2).1.length ≤ 2 ∧
    (((selectTwoUpgrades (availableUpgrades ab) r1 r2).1.filterMap id).map
      UpgradeChoice.key).Nodup ∧
    abilityLevel (selectUpgradeW w k).abilities q =
      abilityLevel w.abilities q + (if q = k then 1 else 0) := by
  refine ⟨availableUpgrades_keys ab, selectTwo_length _ r1 r2, ?_, ?_⟩
  · apply selectTwo_keys_nodup
    rw [availableUpgrades_keys]
    exact (by decide : allAbilityKeys.Nodup).filter _
  · cases k <;> cases q <;>
      simp [selectUpgradeW, bumpAbility, abilityLevel, mkClaws]

/-! ## C1 — projectile collision semantics -/

/-- C1 (amended): one collision scan damages *every* enemy within
`size + 5` of the projectile's position; a piercing projectile is never
removed by hits; a non-piercing projectile performs one splice at its
index per hit — the first removes the projectile itself, and later hits
in the same scan splice again at that index, hitting whatever projectile
has shifted into it (a no-op when the index is out of range). -/
theorem projScan_spec (p : Projectile) (k : ℕ) (es : List Enemy)
    (ps : List Projectile) :
    projScan p k es ps =
      (es.map fun e =>
        if hypot (p.x - e.x) (p.y - e.y) < e.size + 5 then
          { e with hp := e.hp - p.damage }
        else e,
       if p.pierce then ps
       else (fun l => List.eraseIdx l k)^[
         es.countP fun e =>
           decide (hypot (p.x - e.x) (p.y - e.y) < e.size + 5)] ps) := by
  induction es generalizing ps with
  | nil => simp [projScan]
  | cons e rest ih =>
    by_cases hh : hypot (p.x - e.x) (p.y - e.y) < e.size + 5
    · by_cases hpp : p.pierce = true
      · simp [projScan, hh, hpp, ih, List.countP_cons]
      · simp only [Bool.not_eq_true] at hpp
        simp [projScan, hh, hpp, ih, List.countP_cons,
          Function.iterate_succ_apply]
    · simp [projScan, hh, ih, List.countP_cons]

/-- C1 counterexample: the single non-piercing whip projectile hits BOTH
rats in one tick — each loses its 25 damage although the claim allows
damage to at most one enemy per non-piercing projectile.  (The first
splice removed the projectile; the scan kept going.) -/
theorem proj_nonpierce_two_hits_cex :
    projCexWorld.projectiles.length = 1 ∧
    projCexWorld.projectiles.map Projectile.pierce = [false] ∧
    projCexWorld.enemies.map Enemy.hp = [100, 100] ∧
    (updateProjectiles projCexWorld).enemies.map Enemy.hp = [75, 75] ∧
    (updateProjectiles projCexWorld).projectiles = [] := by decide

/-! ## C2 — contact damage semantics -/

theorem movedEnemy_size (w : World) (e : Enemy) :
    (movedEnemy w e).size = e.size := by
  unfold movedEnemy
  by_cases h : (0 : JsNum) <
      hypot (w.player.x - e.x) (w.player.y - e.y) <;> simp [h]

theorem movedEnemy_damage (w : World) (e : Enemy) :
    (movedEnemy w e).damage = e.damage := by
  unfold movedEnemy
  by_cases h : (0 : JsNum) <
      hypot (w.player.x - e.x) (w.player.y - e.y) <;> simp [h]

theorem gameOverM_enemies (w : World) : (gameOverM w).enemies = w.enemies := rfl

theorem gameOverM_player (w : World) : (gameOverM w).player = w.player := rfl

theorem gameOverM_kills (w : World) : (gameOverM w).kills = w.kills := rfl

theorem gameOverM_xpOrbs (w : World) : (gameOverM w).xpOrbs = w.xpOrbs := rfl

theorem gameOverM_abilities (w : World) :
    (gameOverM w).abilities = w.abilities := rfl

theorem gameOverM_gameOver (w : World) : (gameOverM w).gameOver = true := rfl

/-- C2 (amended): when the enemy at index `k` is within `size + 20` of
the player (pre-move distance) and the player is not invulnerable, and
the claw hits of the same iteration leave that enemy's hp positive, the
callback applies exactly one player-hp decrement of
`max(1, floor(damage × damageReduction))` (damageReduction 0.95 iff Cat
Nap level ≥ 2), sets invulnerability to exactly 60, removes exactly that
one enemy, and touches neither kills, XP orbs nor the game-over flag.
(When claw hits kill the detached enemy in the same iteration, the death
branch splices the same index again — see the counterexample.)  A fatal
contact is covered: `gameOver()` only raises the terminal flag and
persists the score, so the decrement, the invulnerability grant and the
single removal happen exactly the same way, and the game-over flag is
raised precisely when the decrement drops the player's hp to ≤ 0. -/
theorem contact_step_spec (w : World) (k : ℕ) (e : Enemy)
    (hk : w.enemies[k]? = some e)
    (hdist : hypot (w.player.x - e.x) (w.player.y - e.y) < e.size + 20)
    (hinv : w.player.invulnerable = 0)
    (halive : ¬((movedEnemy w e).hp -
      clawDamageTo w.abilities.clawOrbit (movedEnemy w e) ≤ 0)) :
    (enemyStep w k).enemies = w.enemies.eraseIdx k ∧
    (enemyStep w k).enemies.length + 1 = w.enemies.length ∧
    (enemyStep w k).player.hp = w.player.hp - intJs (max 1 (jfloor (e.damage *
      (if 2 ≤ w.abilities.catNap.level then 95/100 else 1)))) ∧
    (enemyStep w k).player.invulnerable = 60 ∧
    (enemyStep w k).kills = w.kills ∧
    (enemyStep w k).xpOrbs = w.xpOrbs ∧
    (enemyStep w k).gameOver =
      (if w.player.hp - intJs (max 1 (jfloor (e.damage *
        (if 2 ≤ w.abilities.catNap.level then 95/100 else 1)))) ≤ 0 then true
       else w.gameOver) := by
  have hklen : k < w.enemies.length := by
    rcases List.getElem?_eq_some.mp hk with ⟨h, _⟩
    exact h
  have hlen : (w.enemies.eraseIdx k).length + 1 = w.enemies.length := by
    rw [List.length_eraseIdx, if_pos hklen]
    omega
  unfold enemyStep
  rw [hk]
  simp only [enemyStepCore, movedEnemy_size, movedEnemy_damage, hinv, hdist,
    decide_True, decide_eq_true_eq, Bool.and_self, if_true,
    eraseIdx_set_same]
  by_cases hs : w.player.hp - intJs (max 1 (jfloor (e.damage *
      (if 2 ≤ w.abilities.catNap.level then 95/100 else 1)))) ≤ 0
  · simp only [hs, if_true, gameOverM_enemies, gameOverM_player,
      gameOverM_kills, gameOverM_xpOrbs, gameOverM_abilities,
      gameOverM_gameOver, halive, if_false]
    simp [hlen]
  · simp only [hs, if_false, halive]
    simp [hlen]

/-- Witness for C2's amended theorem: a rat 20 px from the player (inside
the 28 px contact circle), claws far away, full-health player. -/
theorem contact_step_spec_witness :
    contactWitWorld.enemies[0]? = some (ratAt 620 400) ∧
    (enemyStep contactWitWorld 0).enemies = [] ∧
    (enemyStep contactWitWorld 0).player.invulnerable = 60 := by
  have h := contact_step_spec contactWitWorld 0 (ratAt 620 400)
    (by decide) (by decide) (by decide) (by decide)
  exact ⟨by decide, h.1, h.2.2.2.1⟩

/-- C2 counterexample: the rat at (627.9, 400) contacts the player (one
hp decrement of 2, invulnerability 60) and is removed, but the level-4
claw at (655, 400) also kills the already-removed rat in the same
iteration, so the death branch splices index 0 again — removing the
far-away dog as well.  One contact event, two enemies removed (and the
single kill credited with no orb roll for the dog). -/
theorem contact_removes_two_cex :
    contactCexWorld.enemies.length = 2 ∧
    (updateEnemies contactCexWorld).enemies = [] ∧
    (updateEnemies contactCexWorld).kills = 1 ∧
    (updateEnemies contactCexWorld).player.hp = 98 ∧
    (updateEnemies contactCexWorld).player.invulnerable = 59 ∧
    (updateEnemies contactCexWorld).xpOrbs = [] := by decide

end Catto
